import Mathlib

/-!
Verification development for the rate-scraping backend (`src/main.py`).

The Python program is shallowly embedded as follows.

* Python strings are Lean `String`s (logically `List Char`); all string
  manipulation is done on the underlying character lists.  The model is
  ASCII-faithful: CPython additionally maps non-ASCII Unicode decimal digits
  and Unicode spaces to ASCII before `float` parsing, which is irrelevant to
  every property checked here (all inputs under test are ASCII).
* Python `float` values are embedded exactly: a finite IEEE-754 binary64
  value is a sign together with an integer significand and binary exponent,
  and the special values `inf`, `-inf`, `nan` are separate constructors.
  String-to-float conversion (`float(s)`) is modelled by a faithful
  implementation of CPython's grammar (optional whitespace, one optional
  sign, `inf`/`infinity`/`nan` case-insensitively, decimal mantissa with an
  optional fraction and exponent, PEP-515 underscores between digits)
  followed by correct rounding to nearest, ties to even, with overflow to
  infinity and gradual underflow — exactly the semantics of CPython's
  `_Py_dg_strtod`.  Formatting `f"{x:.2f}"` is modelled by correctly rounding
  the exact binary value to two decimal digits, ties to even, which is the
  semantics of CPython's `_Py_dg_dtoa` based fixed-point formatting.
* The Selenium-driven extraction cycle is embedded as a function of an
  oracle (`CycleEnv`) describing the outcome of each external interaction:
  whether the remote-session creation succeeds, whether each `driver.get`
  navigation succeeds, and — when the per-source waits/reads inside a
  `try` block all succeed — which texts the located elements carry.
  The process-wide cache `app.state.rates` is threaded explicitly as an
  `Option RatesResponse` (`none` models the initial empty dict `{}`, which
  is falsy in Python).
-/

namespace IFB

/-! ### Character and string primitives -/

/-- ASCII whitespace recognised by Python's `str.strip()` as used by
`float()` argument stripping. -/
def isPyWs (c : Char) : Bool :=
  c == ' ' || c == '\t' || c == '\n' || c == '\r' || c == '\x0b' || c == '\x0c'

/-- Python `str.strip()` (no argument): remove leading and trailing
whitespace. -/
def stripWsL (s : List Char) : List Char :=
  ((s.dropWhile isPyWs).reverse.dropWhile isPyWs).reverse

/-- Python `str.strip('%')`: remove ALL leading and trailing `'%'`
characters (lines 96 and 150 of `main.py`). -/
def stripPercentL (s : List Char) : List Char :=
  ((s.dropWhile (· == '%')).reverse.dropWhile (· == '%')).reverse

/-- Python `str.strip('%')` on a `String`. -/
def stripPercent (s : String) : String := ⟨stripPercentL s.data⟩

/-- Lower-case an ASCII letter (for the case-insensitive `inf`/`nan`
keywords of `float()`). -/
def lowerAscii (c : Char) : Char :=
  if 'A' ≤ c ∧ c ≤ 'Z' then Char.ofNat (c.toNat + 32) else c

/-- Value of a list of decimal digit characters (most significant first),
as computed by Python `int()` on a digit string. -/
def digitsToNat (l : List Char) : Nat :=
  l.foldl (fun a c => a * 10 + (c.toNat - '0'.toNat)) 0

/-! ### Decimal digit strings of natural numbers -/

/-- Fuel-driven decimal digit expansion (the fuel makes the recursion
structural so that the kernel can evaluate it). -/
def natDigsAux : Nat → Nat → List Char
  | 0, _ => []
  | fuel + 1, n =>
    if n < 10 then [Nat.digitChar n]
    else natDigsAux fuel (n / 10) ++ [Nat.digitChar (n % 10)]

/-- Decimal digit string of a natural number, as printed by Python for a
non-negative integer. -/
def natDigs (n : Nat) : List Char := natDigsAux (n + 1) n

/-- Python `f-string` formatting `f"{v:02d}"` for `v ≥ 0`: zero-pad to
width 2 (wider values print in full). -/
def pad2 (n : Nat) : List Char :=
  if n < 10 then ['0', Nat.digitChar n] else natDigs n

/-! ### Exact binary64 arithmetic on integer fractions -/

/-- Round the non-negative fraction `a / b` (with `b > 0`) to the nearest
natural number, ties to even. -/
def roundTEpos (a b : Nat) : Nat :=
  let q := a / b
  let r := a % b
  if 2 * r < b then q
  else if b < 2 * r then q + 1
  else if q % 2 = 0 then q else q + 1

/-- Fuel-driven binary length: `bitlenAux fuel n` is the number of binary
digits of `n` when `fuel ≥ n`. -/
def bitlenAux : Nat → Nat → Nat
  | 0, _ => 0
  | fuel + 1, n => if n = 0 then 0 else bitlenAux fuel (n / 2) + 1

/-- Number of binary digits of `n` (`0` for `0`). -/
def bitlen (n : Nat) : Nat := bitlenAux n n

/-- Floor of the base-2 logarithm of the positive fraction `a / b`:
the bit-length estimate is off by at most one and a single comparison
fixes it up. -/
def flog2 (a b : Nat) : Int :=
  let n0 : Int := (bitlen a : Int) - (bitlen b : Int)
  let le : Bool :=
    if 0 ≤ n0 then b * 2 ^ n0.toNat ≤ a else b ≤ a * 2 ^ (-n0).toNat
  if le then n0 else n0 - 1

/-- A Python `float` (IEEE-754 binary64).  A finite value is
`(-1)^sign · m · 2^e` with `m < 2^53`; the sign is kept separately so that
negative zero is represented faithfully. -/
inductive PyFloat where
  | finite (sign : Bool) (m : Nat) (e : Int)
  | inf
  | neginf
  | nan
deriving DecidableEq

/-- Correctly round the exact decimal value `(-1)^sign · m10 · 10^e10` to
the nearest binary64 value, ties to even, with overflow to infinity and
gradual underflow — the semantics of CPython's `_Py_dg_strtod`. -/
def toDouble (sign : Bool) (m10 : Nat) (e10 : Int) : PyFloat :=
  if m10 = 0 then .finite sign 0 0
  else
    let a := m10 * 10 ^ e10.toNat
    let b := 10 ^ (-e10).toNat
    let n : Int := flog2 a b
    let e : Int := max (n - 52) (-1074)
    let a2 := a * 2 ^ (-e).toNat
    let b2 := b * 2 ^ e.toNat
    let m := roundTEpos a2 b2
    let overflow : Bool := if 0 ≤ e then 2 ^ 1024 ≤ m * 2 ^ e.toNat else false
    if overflow then (if sign then .neginf else .inf)
    else .finite sign m e

/-! ### The grammar of Python `float(str)` -/

/-- PEP-515 underscore removal: every `'_'` must be directly between two
decimal digits; returns `none` (a `ValueError`) otherwise, and the string
with the underscores removed on success. -/
def remUndAux : Option Char → List Char → Option (List Char)
  | _, [] => some []
  | prev, c :: rest =>
    if c = '_' then
      match prev, rest with
      | some p, c2 :: _ =>
        if p.isDigit ∧ c2.isDigit then remUndAux (some c) rest else none
      | _, _ => none
    else
      (remUndAux (some c) rest).map (c :: ·)

/-- Underscore validation and removal for the whole string. -/
def remUnd (l : List Char) : Option (List Char) := remUndAux none l

/-- Parse the unsigned decimal-number part of the `float()` grammar:
`digits [. digits] [(e|E) [sign] digits]`, at least one mantissa digit,
nothing left over.  Returns the mantissa digits value and the decimal
exponent, so the exact value is `m10 · 10^e10`. -/
def parseNum (l : List Char) : Option (Nat × Int) :=
  let intD := l.takeWhile Char.isDigit
  let r1 := l.dropWhile Char.isDigit
  let fracD := match r1 with
    | '.' :: t => t.takeWhile Char.isDigit
    | _ => []
  let r2 := match r1 with
    | '.' :: t => t.dropWhile Char.isDigit
    | _ => r1
  if intD = [] ∧ fracD = [] then none
  else
    match r2 with
    | [] => some (digitsToNat (intD ++ fracD), -(fracD.length : Int))
    | e :: t =>
      if e = 'e' ∨ e = 'E' then
        let esign : Int := match t with
          | '-' :: _ => -1
          | _ => 1
        let t2 := match t with
          | '+' :: t2 => t2
          | '-' :: t2 => t2
          | _ => t
        let eD := t2.takeWhile Char.isDigit
        if eD = [] ∨ t2.dropWhile Char.isDigit ≠ [] then none
        else some (digitsToNat (intD ++ fracD),
                   esign * (digitsToNat eD : Int) - (fracD.length : Int))
      else none

/-- The body after the optional sign: case-insensitive `inf`, `infinity`
or `nan`, or a decimal number. -/
def parseBody (sign : Bool) (body : List Char) : Option PyFloat :=
  let low := body.map lowerAscii
  if low = ['i','n','f'] ∨ low = ['i','n','f','i','n','i','t','y'] then
    some (if sign then .neginf else .inf)
  else if low = ['n','a','n'] then
    some .nan
  else
    match parseNum body with
    | some (m10, e10) => some (toDouble sign m10 e10)
    | none => none

/-- Python `float(s)` for a string argument: `none` models a raised
`ValueError`. -/
def pyFloatOfString (s : String) : Option PyFloat :=
  let t := stripWsL s.data
  match remUnd t with
  | none => none
  | some u =>
    match u with
    | '+' :: body => parseBody false body
    | '-' :: body => parseBody true body
    | body => parseBody false body

/-! ### Python fixed-point formatting `f"{x:.2f}"` -/

/-- Correctly round the magnitude `m · 2^e` to an integer number of
hundredths, ties to even. -/
def hundredths (m : Nat) (e : Int) : Nat :=
  if 0 ≤ e then m * 2 ^ e.toNat * 100
  else roundTEpos (m * 100) (2 ^ (-e).toNat)

/-- Python `f"{x:.2f}"`: fixed-point with exactly two fractional digits
for finite values (the sign is printed from the value's sign bit, so
negative zero prints `-0.00`); `inf`, `-inf` and `nan` print as such. -/
def formatF2 : PyFloat → List Char
  | .inf => ['i','n','f']
  | .neginf => ['-','i','n','f']
  | .nan => ['n','a','n']
  | .finite sign m e =>
    let c := hundredths m e
    (if sign then ['-'] else []) ++ natDigs (c / 100) ++ '.' :: pad2 (c % 100)

/-- The helper `format_rate` of `main.py` (lines 39–45): try
`float(rate_str)`, return `f"{rate_float:.2f}"` on success and the
original string unchanged when `float` raises `ValueError`. -/
def format_rate (rate_str : String) : String :=
  match pyFloatOfString rate_str with
  | some x => ⟨formatF2 x⟩
  | none => rate_str

/-- The `TypeError` branch of `format_rate`: when the argument is `None`
(`none` here), `float(None)` raises `TypeError`, which the same handler
catches, returning the original `None`. -/
def format_rate_opt : Option String → Option String
  | none => none
  | some s => some (format_rate s)

/-- Number of characters after the last `'.'` of a string, `none` when it
has no `'.'` at all. -/
def fracDigits (l : List Char) : Option Nat :=
  if '.' ∈ l then some (l.reverse.takeWhile (fun c => !(c == '.'))).length
  else none

/-! ### The regular-expression searches of `main.py`

All patterns used by the program are fixed-width (or, for `\d+`, maximal
digit runs), so `re.search` is exactly a leftmost window scan.  `\d` is
modelled as an ASCII digit (CPython also accepts other Unicode decimal
digits; no text under test contains any). -/

/-- Match `(\d{2})/(\d{2})/(\d{4})` anchored at the head of the list,
returning the three capture groups `(day, month, year)`. -/
def matchSlashAt : List Char → Option (List Char × List Char × List Char)
  | d1 :: d2 :: '/' :: m1 :: m2 :: '/' :: y1 :: y2 :: y3 :: y4 :: _ =>
    if d1.isDigit ∧ d2.isDigit ∧ m1.isDigit ∧ m2.isDigit ∧
       y1.isDigit ∧ y2.isDigit ∧ y3.isDigit ∧ y4.isDigit then
      some ([d1, d2], [m1, m2], [y1, y2, y3, y4])
    else none
  | _ => none

/-- Leftmost search for `(\d{2})/(\d{2})/(\d{4})` (lines 97 and 120). -/
def searchSlash : List Char → Option (List Char × List Char × List Char)
  | [] => none
  | l@(_ :: rest) =>
    match matchSlashAt l with
    | some g => some g
    | none => searchSlash rest

/-- Lines 97–98 and 120–121: reformat a `DD/MM/YYYY` match found anywhere
in the text to `YYYY-MM-DD`, and `"N/A"` when there is no match. -/
def reformatSlashDate (t : String) : String :=
  match searchSlash t.data with
  | some (d, m, y) => ⟨y ++ '-' :: m ++ '-' :: d⟩
  | none => "N/A"

/-- Match `(\d{4}-\d{2}-\d{2})` anchored at the head, returning the whole
match. -/
def matchYmdAt : List Char → Option (List Char)
  | y1 :: y2 :: y3 :: y4 :: '-' :: m1 :: m2 :: '-' :: d1 :: d2 :: _ =>
    if y1.isDigit ∧ y2.isDigit ∧ y3.isDigit ∧ y4.isDigit ∧
       m1.isDigit ∧ m2.isDigit ∧ d1.isDigit ∧ d2.isDigit then
      some [y1, y2, y3, y4, '-', m1, m2, '-', d1, d2]
    else none
  | _ => none

/-- Leftmost search for `(\d{4}-\d{2}-\d{2})` (line 106). -/
def searchYmd : List Char → Option (List Char)
  | [] => none
  | l@(_ :: rest) =>
    match matchYmdAt l with
    | some g => some g
    | none => searchYmd rest

/-- Match `\d{4}` anchored at the head. -/
def matchD4At : List Char → Option (List Char)
  | c1 :: c2 :: c3 :: c4 :: _ =>
    if c1.isDigit ∧ c2.isDigit ∧ c3.isDigit ∧ c4.isDigit then
      some [c1, c2, c3, c4]
    else none
  | _ => none

/-- Leftmost search for `\d{4}` (line 147). -/
def searchD4 : List Char → Option (List Char)
  | [] => none
  | l@(_ :: rest) =>
    match matchD4At l with
    | some g => some g
    | none => searchD4 rest

/-- Accumulator loop for `re.findall(r'\d+', text)`: collect the maximal
runs of digits in order. -/
def digitRunsGo : List Char → List Char → List (List Char)
  | [], cur => if cur = [] then [] else [cur.reverse]
  | c :: rest, cur =>
    if c.isDigit then digitRunsGo rest (c :: cur)
    else if cur = [] then digitRunsGo rest []
    else cur.reverse :: digitRunsGo rest []

/-- Python `re.findall(r'\d+', text)` (line 148). -/
def digitRuns (l : List Char) : List (List Char) := digitRunsGo l []

/-! ### Data model (`PrimeRateItem`, `HiborItem`, `RatesResponse`) -/

/-- One bank's record (lines 25–28). -/
structure PrimeRateItem where
  bankName : String
  primeRateValue : String
  bankUpdateDate : String
deriving DecidableEq

/-- The HIBOR record (lines 30–32). -/
structure HiborItem where
  HIBOR_value : String
  lastUpdateDate : String
deriving DecidableEq

/-- The full snapshot served to clients (lines 34–36). -/
structure RatesResponse where
  primeRate : List PrimeRateItem
  HIBOR : HiborItem
deriving DecidableEq

/-! ### The per-source extraction blocks

Each bank's block is a `try`/`except` whose only observable effects are
the final `rate_item.update({...})`.  The oracle value `none` models any
exception raised by the waits/locates/reads inside the `try` (timeout,
missing element); `some texts` models all reads succeeding with the given
element texts.  In every block the record is updated once, at the end, so
a failure anywhere inside the `try` leaves both fields `"N/A"`. -/

/-- Lines 91–100 (天星銀行): on success the texts are
`(rate_element.text, date_element.text)`; the rate text is stripped of
`'%'` on both sides by `str.strip('%')`, and the date is a `DD/MM/YYYY`
search reformatted to `YYYY-MM-DD`. -/
def bankARecord : Option (String × String) → PrimeRateItem
  | none => ⟨"天星銀行", "N/A", "N/A"⟩
  | some (rateText, dateText) =>
    ⟨"天星銀行", format_rate (stripPercent rateText), reformatSlashDate dateText⟩

/-- Lines 102–112 (華僑永亨): the date is a `(\d{4}-\d{2}-\d{2})` search
(group 1, already in target order); the rate text is formatted without any
percent stripping. -/
def bankBRecord : Option (String × String) → PrimeRateItem
  | none => ⟨"華僑永亨", "N/A", "N/A"⟩
  | some (rateText, dateText) =>
    ⟨"華僑永亨", format_rate rateText,
      match searchYmd dateText.data with
      | some g => ⟨g⟩
      | none => "N/A"⟩

/-- Lines 114–127 (工商銀行): `DD/MM/YYYY` reformat for the date, plain
`format_rate` for the rate. -/
def bankCRecord : Option (String × String) → PrimeRateItem
  | none => ⟨"工商銀行", "N/A", "N/A"⟩
  | some (rateText, dateText) =>
    ⟨"工商銀行", format_rate rateText, reformatSlashDate dateText⟩

/-- Lines 132–152 (HIBOR): on success the oracle carries
`(yearText, dateText, rateText)` — the texts of the year header cell, the
first date cell and the rate cell.  `re.search(r'\d{4}', year_text)` with
no match makes `.group(0)` raise `AttributeError`, which the surrounding
`except` catches, leaving the record at `"N/A"`.  Otherwise the date is
`f"{year}-{int(p0):02d}-{int(p1):02d}"` when `re.findall(r'\d+', ...)`
finds exactly two runs, else `"N/A"`, and the rate text is stripped of
`'%'` and formatted.  (The transient phishing-banner dismissal of lines
134–138 is wrapped in its own `try`/`except pass` and has no effect on
the produced record, so it is not modelled.) -/
def hiborRecord : Option (String × String × String) → HiborItem
  | none => ⟨"N/A", "N/A"⟩
  | some (yearText, dateText, rateText) =>
    match searchD4 yearText.data with
    | none => ⟨"N/A", "N/A"⟩
    | some y =>
      let parts := digitRuns dateText.data
      let fdate : String := match parts with
        | [p0, p1] =>
          ⟨y ++ '-' :: pad2 (digitsToNat p0) ++ '-' :: pad2 (digitsToNat p1)⟩
        | _ => "N/A"
      ⟨format_rate (stripPercent rateText), fdate⟩

/-! ### The extraction cycle (`scrape_and_cache_rates`, lines 48–162) -/

/-- Oracle for one bank source: whether the unguarded
`driver.get(url)` (line 89) succeeds, and the outcome of the guarded
block. -/
structure SourceEnv where
  navOk : Bool
  fields : Option (String × String)

/-- Oracle for the HIBOR source: the unguarded `driver.get(hibor_url)`
(line 131) and the guarded block. -/
structure HiborEnv where
  navOk : Bool
  fields : Option (String × String × String)

/-- Oracle for one full cycle: remote-session creation (line 65) plus the
four sources in program order. -/
structure CycleEnv where
  connectOk : Bool
  bankA : SourceEnv
  bankB : SourceEnv
  bankC : SourceEnv
  hibor : HiborEnv

/-- The snapshot assembled by a cycle in which connection and all four
navigations succeed: the fresh per-cycle records (lines 70–75) as updated
by the four guarded blocks, in iteration order of `prime_rate_data`. -/
def snapOf (env : CycleEnv) : RatesResponse :=
  ⟨[bankARecord env.bankA.fields, bankBRecord env.bankB.fields,
    bankCRecord env.bankC.fields], hiborRecord env.hibor.fields⟩

/-- Lines 48–162, as a function from the oracle and the previous cache to
the new cache.  Session-creation failure and each `driver.get` failure
raise outside every per-source `try`, so they propagate to the top-level
`except` (line 157): the cycle ends, nothing is published and the cache
is returned unchanged.  Only when all of them succeed does line 154
assign the whole fresh snapshot to `app.state.rates` in a single
statement.  (All three bank names are keys of `url_map`, so the `continue`
of line 86 never fires; the `finally` block only closes the browser
session and does not touch the cache.) -/
def scrape_and_cache_rates (env : CycleEnv) (cache : Option RatesResponse) :
    Option RatesResponse :=
  if env.connectOk = false then cache
  else if env.bankA.navOk = false then cache
  else
    let recA := bankARecord env.bankA.fields
    if env.bankB.navOk = false then cache
    else
      let recB := bankBRecord env.bankB.fields
      if env.bankC.navOk = false then cache
      else
        let recC := bankCRecord env.bankC.fields
        if env.hibor.navOk = false then cache
        else
          some ⟨[recA, recB, recC], hiborRecord env.hibor.fields⟩

/-- The whole-cycle abort condition: the cycle publishes a snapshot if
and only if the session creation and all four navigations succeed. -/
def cycleCompletes (env : CycleEnv) : Bool :=
  env.connectOk && env.bankA.navOk && env.bankB.navOk &&
    env.bankC.navOk && env.hibor.navOk

/-! ### The query endpoint (`get_rates`, lines 192–197) -/

/-- The placeholder returned before any cycle has published (line 196). -/
def loadingResponse : RatesResponse :=
  ⟨[⟨"天星銀行", "Loading...", "Loading..."⟩,
    ⟨"華僑永亨", "Loading...", "Loading..."⟩,
    ⟨"工商銀行", "Loading...", "Loading..."⟩],
   ⟨"Loading...", "Loading..."⟩⟩

/-- Lines 192–197: `app.state.rates` is initialised to the empty dict
(line 167), which is falsy, modelled by `none`; a published snapshot is a
non-empty dict, modelled by `some`.  The endpoint reads the cache and
never writes it. -/
def get_rates : Option RatesResponse → RatesResponse
  | none => loadingResponse
  | some r => r

/-! ### Helper lemmas: digit strings -/

theorem digitChar_isDigit (k : Nat) (h : k < 10) : (Nat.digitChar k).isDigit = true := by
  interval_cases k <;> decide

theorem natDigsAux_spec (fuel : Nat) : ∀ n, n < fuel →
    natDigsAux fuel n ≠ [] ∧ ∀ c ∈ natDigsAux fuel n, c.isDigit = true := by
  induction fuel with
  | zero => intro n h; omega
  | succ f ih =>
    intro n h
    by_cases h10 : n < 10
    · refine ⟨by simp [natDigsAux, h10], ?_⟩
      intro c hc
      simp only [natDigsAux, if_pos h10, List.mem_singleton] at hc
      subst hc
      exact digitChar_isDigit n h10
    · have hlt : n / 10 < f := by
        have := Nat.div_lt_self (by omega : 0 < n) (by norm_num : 1 < 10)
        omega
      obtain ⟨hne, hdig⟩ := ih (n / 10) hlt
      refine ⟨by simp [natDigsAux, h10], ?_⟩
      intro c hc
      simp only [natDigsAux, if_neg h10, List.mem_append, List.mem_singleton] at hc
      rcases hc with hc | hc
      · exact hdig c hc
      · subst hc
        exact digitChar_isDigit _ (Nat.mod_lt _ (by norm_num))

theorem natDigs_spec (n : Nat) :
    natDigs n ≠ [] ∧ ∀ c ∈ natDigs n, c.isDigit = true :=
  natDigsAux_spec (n + 1) n (Nat.lt_succ_self n)

theorem pad2_spec (n : Nat) : pad2 n ≠ [] ∧ ∀ c ∈ pad2 n, c.isDigit = true := by
  unfold pad2
  by_cases h : n < 10
  · refine ⟨by simp [h], ?_⟩
    intro c hc
    simp only [if_pos h, List.mem_cons, List.mem_singleton, List.not_mem_nil, or_false] at hc
    rcases hc with rfl | rfl
    · decide
    · exact digitChar_isDigit n h
  · simpa [h] using natDigs_spec n

theorem pad2_len2 (n : Nat) (h : n < 100) : (pad2 n).length = 2 := by
  unfold pad2
  by_cases h10 : n < 10
  · simp [h10]
  · rw [if_neg h10]
    obtain ⟨f, rfl⟩ : ∃ f, n = f + 1 := ⟨n - 1, by omega⟩
    have hq : (f + 1) / 10 < 10 := by omega
    unfold natDigs
    simp [natDigsAux, if_neg h10, hq]

/-! ### Helper lemmas: fractional-digit counting -/

theorem digit_not_dot (c : Char) (h : c.isDigit = true) : (!(c == '.')) = true := by
  cases hbe : c == '.'
  · rfl
  · have hc : c = '.' := beq_iff_eq.mp hbe
    subst hc
    exact absurd h (by decide)

theorem takeWhile_all_append (p : Char → Bool) (l r : List Char) (x : Char)
    (hl : ∀ c ∈ l, p c = true) (hx : p x = false) :
    (l ++ x :: r).takeWhile p = l := by
  rw [List.takeWhile_append_of_pos hl]
  simp [List.takeWhile_cons, hx]

theorem fracDigits_append (A C : List Char) (hC : ∀ c ∈ C, c.isDigit = true) :
    fracDigits (A ++ '.' :: C) = some C.length := by
  unfold fracDigits
  rw [if_pos (List.mem_append_right A (List.mem_cons_self _ _))]
  rw [List.reverse_append, List.reverse_cons, List.append_assoc, List.singleton_append]
  rw [takeWhile_all_append _ _ _ _
        (fun c hc => digit_not_dot c (hC c (List.mem_reverse.mp hc))) (by decide)]
  rw [List.length_reverse]

theorem fracDigits_formatF2 (s : Bool) (m : Nat) (e : Int) :
    fracDigits (formatF2 (.finite s m e)) = some 2 := by
  show fracDigits
      ((if s then ['-'] else []) ++ natDigs (hundredths m e / 100) ++
        '.' :: pad2 (hundredths m e % 100)) = some 2
  rw [fracDigits_append _ _ (pad2_spec _).2]
  rw [pad2_len2 _ (Nat.mod_lt _ (by norm_num))]

/-! ### Helper lemmas: `format_rate` case analysis -/

theorem format_rate_of_none (t : String) (h : pyFloatOfString t = none) :
    format_rate t = t := by
  unfold format_rate
  rw [h]

theorem format_rate_of_some (t : String) (x : PyFloat)
    (h : pyFloatOfString t = some x) : format_rate t = ⟨formatF2 x⟩ := by
  unfold format_rate
  rw [h]

/-- Disjunctive characterisation of any string a rate field of a published
snapshot can hold: the untouched seed `"N/A"`, a fixed-point decimal with
exactly two fractional digits, one of the three special-value spellings, or
a string that does not parse as a float (the `format_rate` pass-through). -/
def rateFieldOK (r : String) : Prop :=
  r = "N/A" ∨ fracDigits r.data = some 2 ∨ r = "inf" ∨ r = "-inf" ∨ r = "nan" ∨
    pyFloatOfString r = none

theorem rateFieldOK_format_rate (t : String) : rateFieldOK (format_rate t) := by
  unfold rateFieldOK
  cases h : pyFloatOfString t with
  | none =>
    rw [format_rate_of_none t h]
    exact Or.inr (Or.inr (Or.inr (Or.inr (Or.inr h))))
  | some x =>
    rw [format_rate_of_some t x h]
    cases x with
    | finite s m e => exact Or.inr (Or.inl (fracDigits_formatF2 s m e))
    | inf => exact Or.inr (Or.inr (Or.inl rfl))
    | neginf => exact Or.inr (Or.inr (Or.inr (Or.inl rfl)))
    | nan => exact Or.inr (Or.inr (Or.inr (Or.inr (Or.inl rfl))))

/-! ### Helper lemmas: the regular-expression searches -/

theorem matchSlashAt_spec (l : List Char) (d mo y : List Char)
    (h : matchSlashAt l = some (d, mo, y)) :
    d.length = 2 ∧ mo.length = 2 ∧ y.length = 4 ∧
      (∀ c ∈ d, c.isDigit = true) ∧ (∀ c ∈ mo, c.isDigit = true) ∧
      (∀ c ∈ y, c.isDigit = true) := by
  unfold matchSlashAt at h
  split at h
  · split at h
    · rename_i hdig
      have hinj := Option.some.inj h
      simp only [Prod.mk.injEq] at hinj
      obtain ⟨hd, hmo, hy⟩ := hinj
      subst hd; subst hmo; subst hy
      obtain ⟨h1, h2, h3, h4, h5, h6, h7, h8⟩ := hdig
      refine ⟨rfl, rfl, rfl, ?_, ?_, ?_⟩
      · intro c hc
        simp only [List.mem_cons] at hc
        rcases hc with rfl | rfl | hc
        · exact h1
        · exact h2
        · cases hc
      · intro c hc
        simp only [List.mem_cons] at hc
        rcases hc with rfl | rfl | hc
        · exact h3
        · exact h4
        · cases hc
      · intro c hc
        simp only [List.mem_cons] at hc
        rcases hc with rfl | rfl | rfl | rfl | hc
        · exact h5
        · exact h6
        · exact h7
        · exact h8
        · cases hc
    · exact Option.noConfusion h
  · exact Option.noConfusion h

theorem searchSlash_spec (l : List Char) : ∀ d mo y,
    searchSlash l = some (d, mo, y) →
    d.length = 2 ∧ mo.length = 2 ∧ y.length = 4 ∧
      (∀ c ∈ d, c.isDigit = true) ∧ (∀ c ∈ mo, c.isDigit = true) ∧
      (∀ c ∈ y, c.isDigit = true) := by
  induction l with
  | nil => intro d mo y h; exact Option.noConfusion h
  | cons c rest ih =>
    intro d mo y h
    unfold searchSlash at h
    cases hm : matchSlashAt (c :: rest) with
    | some g =>
      rw [hm] at h
      obtain ⟨d1, mo1, y1⟩ := g
      cases Option.some.inj h
      exact matchSlashAt_spec _ _ _ _ hm
    | none =>
      rw [hm] at h
      exact ih d mo y h

theorem matchYmdAt_spec (l : List Char) (g : List Char)
    (h : matchYmdAt l = some g) :
    ∃ y1 y2 y3 y4 m1 m2 d1 d2 : Char,
      g = [y1, y2, y3, y4, '-', m1, m2, '-', d1, d2] ∧
      (∀ c ∈ [y1, y2, y3, y4, m1, m2, d1, d2], c.isDigit = true) := by
  unfold matchYmdAt at h
  split at h
  · split at h
    · rename_i y1 y2 y3 y4 m1 m2 d1 d2 rest hdig
      obtain ⟨h1, h2, h3, h4, h5, h6, h7, h8⟩ := hdig
      refine ⟨y1, y2, y3, y4, m1, m2, d1, d2, (Option.some.inj h).symm, ?_⟩
      intro c hc
      simp only [List.mem_cons, List.not_mem_nil, or_false] at hc
      rcases hc with rfl | rfl | rfl | rfl | rfl | rfl | rfl | rfl <;> assumption
    · exact Option.noConfusion h
  · exact Option.noConfusion h

theorem searchYmd_spec (l : List Char) : ∀ g, searchYmd l = some g →
    ∃ y1 y2 y3 y4 m1 m2 d1 d2 : Char,
      g = [y1, y2, y3, y4, '-', m1, m2, '-', d1, d2] ∧
      (∀ c ∈ [y1, y2, y3, y4, m1, m2, d1, d2], c.isDigit = true) := by
  induction l with
  | nil => intro g h; exact Option.noConfusion h
  | cons c rest ih =>
    intro g h
    unfold searchYmd at h
    cases hm : matchYmdAt (c :: rest) with
    | some g1 =>
      rw [hm] at h
      cases Option.some.inj h
      exact matchYmdAt_spec _ _ hm
    | none =>
      rw [hm] at h
      exact ih g h

theorem matchD4At_spec (l : List Char) (g : List Char)
    (h : matchD4At l = some g) :
    g.length = 4 ∧ ∀ c ∈ g, c.isDigit = true := by
  unfold matchD4At at h
  split at h
  · split at h
    · rename_i hdig
      obtain ⟨h1, h2, h3, h4⟩ := hdig
      cases Option.some.inj h
      refine ⟨rfl, ?_⟩
      intro c hc
      simp only [List.mem_cons, List.not_mem_nil, or_false] at hc
      rcases hc with rfl | rfl | rfl | rfl <;> assumption
    · exact Option.noConfusion h
  · exact Option.noConfusion h

theorem searchD4_spec (l : List Char) : ∀ g, searchD4 l = some g →
    g.length = 4 ∧ ∀ c ∈ g, c.isDigit = true := by
  induction l with
  | nil => intro g h; exact Option.noConfusion h
  | cons c rest ih =>
    intro g h
    unfold searchD4 at h
    cases hm : matchD4At (c :: rest) with
    | some g1 =>
      rw [hm] at h
      cases Option.some.inj h
      exact matchD4At_spec _ _ hm
    | none =>
      rw [hm] at h
      exact ih g h

theorem searchSlash_of_contains (pre suf : List Char)
    (d1 d2 m1 m2 y1 y2 y3 y4 : Char)
    (h : ∀ c ∈ [d1, d2, m1, m2, y1, y2, y3, y4], c.isDigit = true) :
    (searchSlash
      (pre ++ d1 :: d2 :: '/' :: m1 :: m2 :: '/' :: y1 :: y2 :: y3 :: y4 :: suf)).isSome
      = true := by
  have hm : matchSlashAt
      (d1 :: d2 :: '/' :: m1 :: m2 :: '/' :: y1 :: y2 :: y3 :: y4 :: suf) =
      some ([d1, d2], [m1, m2], [y1, y2, y3, y4]) := by
    show (if d1.isDigit = true ∧ d2.isDigit = true ∧ m1.isDigit = true ∧
        m2.isDigit = true ∧ y1.isDigit = true ∧ y2.isDigit = true ∧
        y3.isDigit = true ∧ y4.isDigit = true then
        some (([d1, d2], [m1, m2], [y1, y2, y3, y4]) :
          List Char × List Char × List Char) else none) =
        some ([d1, d2], [m1, m2], [y1, y2, y3, y4])
    exact if_pos ⟨h d1 (by simp), h d2 (by simp), h m1 (by simp), h m2 (by simp),
      h y1 (by simp), h y2 (by simp), h y3 (by simp), h y4 (by simp)⟩
  induction pre with
  | nil =>
    rw [List.nil_append]
    unfold searchSlash
    rw [hm]
    rfl
  | cons c rest ih =>
    rw [List.cons_append]
    unfold searchSlash
    cases hmc : matchSlashAt
        (c :: (rest ++ d1 :: d2 :: '/' :: m1 :: m2 :: '/' ::
          y1 :: y2 :: y3 :: y4 :: suf)) with
    | some g => rfl
    | none => exact ih

/-! ### Helper lemmas: date shapes -/

/-- Shape of every date field produced by the three bank branches: four
digits, a dash, two digits, a dash, two digits — the `YYYY-MM-DD` order
(no calendar-range validation is performed by the program). -/
def ymdShape (d : String) : Prop :=
  ∃ y mo dd : List Char, d.data = y ++ '-' :: mo ++ '-' :: dd ∧
    y.length = 4 ∧ mo.length = 2 ∧ dd.length = 2 ∧
    (∀ c ∈ y, c.isDigit = true) ∧ (∀ c ∈ mo, c.isDigit = true) ∧
    (∀ c ∈ dd, c.isDigit = true)

/-- Shape of the HIBOR date field: a four-digit year, then two zero-padded
decimal numbers of at least one digit each (`f"{v:02d}"` does not truncate
wider values). -/
def hiborDateShape (d : String) : Prop :=
  ∃ y p q : List Char, d.data = y ++ '-' :: p ++ '-' :: q ∧
    y.length = 4 ∧ p ≠ [] ∧ q ≠ [] ∧
    (∀ c ∈ y, c.isDigit = true) ∧ (∀ c ∈ p, c.isDigit = true) ∧
    (∀ c ∈ q, c.isDigit = true)

/-! ### Helper lemmas: `str.strip` -/

theorem dropWhile_getLast_opt (p : Char → Bool) :
    ∀ w : List Char, w.dropWhile p ≠ [] →
      (w.dropWhile p).getLast? = w.getLast? := by
  intro w
  induction w with
  | nil => intro h; exact absurd rfl h
  | cons c rest ih =>
    intro h
    by_cases hp : p c
    · rw [List.dropWhile_cons_of_pos hp] at h ⊢
      rw [ih h]
      have hrest : rest ≠ [] := by
        intro he
        subst he
        exact h rfl
      obtain ⟨d, rest2, rfl⟩ : ∃ d rest2, rest = d :: rest2 := by
        cases rest with
        | nil => exact absurd rfl hrest
        | cons d rest2 => exact ⟨d, rest2, rfl⟩
      rw [List.getLast?_cons_cons]
    · rw [List.dropWhile_cons_of_neg hp]

theorem dropWhile_head_opt (p : Char → Bool) (w : List Char) (a : Char)
    (h : (w.dropWhile p).head? = some a) : p a = false := by
  have hm := List.head?_dropWhile_not p w
  rw [h] at hm
  exact hm

theorem mem_takeWhile_percent :
    ∀ (w : List Char) (b : Char), b ∈ w.takeWhile (· == '%') → b = '%' := by
  intro w
  induction w with
  | nil => intro b hb; cases hb
  | cons c rest ih =>
    intro b hb
    rw [List.takeWhile_cons] at hb
    by_cases hp : (c == '%') = true
    · rw [if_pos hp] at hb
      cases hb with
      | head => exact beq_iff_eq.mp hp
      | tail _ h2 => exact ih b h2
    · rw [if_neg hp] at hb
      cases hb

theorem takeWhile_percent_replicate (w : List Char) :
    w.takeWhile (· == '%') =
      List.replicate (w.takeWhile (· == '%')).length '%' :=
  List.eq_replicate_of_mem (mem_takeWhile_percent w)

/-- Structure theorem for `str.strip('%')`: the input is exactly a block
of leading percent signs, the stripped core, and a block of trailing
percent signs, and the core neither starts nor ends with a percent
sign.  In particular the strip removes every leading and every trailing
`'%'` and nothing in the interior. -/
theorem stripPercentL_decomp (t : List Char) :
    ∃ a b : Nat,
      t = List.replicate a '%' ++ stripPercentL t ++ List.replicate b '%' ∧
      (stripPercentL t).head? ≠ some '%' ∧
      (stripPercentL t).getLast? ≠ some '%' := by
  refine ⟨(t.takeWhile (· == '%')).length,
          ((t.dropWhile (· == '%')).reverse.takeWhile (· == '%')).length,
          ?_, ?_, ?_⟩
  · conv_lhs => rw [← List.takeWhile_append_dropWhile (· == '%') t]
    rw [List.append_assoc]
    congr 1
    · exact takeWhile_percent_replicate t
    · conv_lhs => rw [← List.reverse_reverse (t.dropWhile (· == '%'))]
      conv_lhs =>
        rw [← List.takeWhile_append_dropWhile (· == '%')
              (t.dropWhile (· == '%')).reverse]
      rw [List.reverse_append]
      congr 1
      conv_lhs => rw [takeWhile_percent_replicate]
      rw [List.reverse_replicate]
  · unfold stripPercentL
    rw [List.head?_reverse]
    cases hv : ((t.dropWhile (· == '%')).reverse.dropWhile (· == '%')) with
    | nil => simp
    | cons d rest =>
      rw [← hv]
      rw [dropWhile_getLast_opt _ _ (by rw [hv]; simp)]
      rw [List.getLast?_reverse]
      cases hu : (t.dropWhile (· == '%')).head? with
      | none => simp
      | some x =>
        have hxp := dropWhile_head_opt _ _ _ hu
        intro hcon
        have hx : x = '%' := Option.some.inj hcon
        subst hx
        simp at hxp
  · unfold stripPercentL
    rw [List.getLast?_reverse]
    cases hv : ((t.dropWhile (· == '%')).reverse.dropWhile (· == '%')).head? with
    | none => simp
    | some x =>
      have hxp := dropWhile_head_opt _ _ _ hv
      intro hcon
      have hx : x = '%' := Option.some.inj hcon
      subst hx
      simp at hxp

/-! ### Helper lemmas: publish and abort of the cycle -/

theorem scrape_publish (env : CycleEnv) (cache : Option RatesResponse)
    (h : cycleCompletes env = true) :
    scrape_and_cache_rates env cache = some (snapOf env) := by
  unfold cycleCompletes at h
  simp only [Bool.and_eq_true] at h
  obtain ⟨⟨⟨⟨hc, ha⟩, hb⟩, hcc⟩, hh⟩ := h
  unfold scrape_and_cache_rates snapOf
  rw [hc, ha, hb, hcc, hh]
  simp

theorem scrape_abort (env : CycleEnv) (cache : Option RatesResponse)
    (h : cycleCompletes env = false) :
    scrape_and_cache_rates env cache = cache := by
  unfold cycleCompletes at h
  unfold scrape_and_cache_rates
  cases hc : env.connectOk <;> cases ha : env.bankA.navOk <;>
    cases hb : env.bankB.navOk <;> cases hcc : env.bankC.navOk <;>
    cases hh : env.hibor.navOk <;> simp_all

theorem reformatSlashDate_shape (t : String) :
    reformatSlashDate t = "N/A" ∨ ymdShape (reformatSlashDate t) := by
  unfold reformatSlashDate
  cases hs : searchSlash t.data with
  | none => exact Or.inl rfl
  | some g =>
    obtain ⟨d, mo, y⟩ := g
    obtain ⟨hd, hmo, hy, hdd, hmd, hyd⟩ := searchSlash_spec t.data d mo y hs
    exact Or.inr ⟨y, mo, d, rfl, hy, hmo, hd, hyd, hmd, hdd⟩

/-! ### Helper lemmas: field shapes of the per-source records -/

theorem bankARecord_shape (f : Option (String × String)) :
    rateFieldOK (bankARecord f).primeRateValue ∧
    ((bankARecord f).bankUpdateDate = "N/A" ∨
      ymdShape (bankARecord f).bankUpdateDate) := by
  cases f with
  | none => exact ⟨Or.inl rfl, Or.inl rfl⟩
  | some rd =>
    obtain ⟨rt, dt⟩ := rd
    exact ⟨rateFieldOK_format_rate _, reformatSlashDate_shape dt⟩

theorem bankBRecord_shape (f : Option (String × String)) :
    rateFieldOK (bankBRecord f).primeRateValue ∧
    ((bankBRecord f).bankUpdateDate = "N/A" ∨
      ymdShape (bankBRecord f).bankUpdateDate) := by
  cases f with
  | none => exact ⟨Or.inl rfl, Or.inl rfl⟩
  | some rd =>
    obtain ⟨rt, dt⟩ := rd
    refine ⟨rateFieldOK_format_rate _, ?_⟩
    simp only [bankBRecord]
    cases hs : searchYmd dt.data with
    | none => exact Or.inl rfl
    | some g =>
      obtain ⟨y1, y2, y3, y4, m1, m2, d1, d2, hg, hdig⟩ := searchYmd_spec dt.data g hs
      subst hg
      refine Or.inr ⟨[y1, y2, y3, y4], [m1, m2], [d1, d2], rfl, rfl, rfl, rfl,
        ?_, ?_, ?_⟩
      · intro c hc
        simp only [List.mem_cons] at hc
        rcases hc with rfl | rfl | rfl | rfl | hc
        · exact hdig c (by simp)
        · exact hdig c (by simp)
        · exact hdig c (by simp)
        · exact hdig c (by simp)
        · cases hc
      · intro c hc
        simp only [List.mem_cons] at hc
        rcases hc with rfl | rfl | hc
        · exact hdig c (by simp)
        · exact hdig c (by simp)
        · cases hc
      · intro c hc
        simp only [List.mem_cons] at hc
        rcases hc with rfl | rfl | hc
        · exact hdig c (by simp)
        · exact hdig c (by simp)
        · cases hc

theorem bankCRecord_shape (f : Option (String × String)) :
    rateFieldOK (bankCRecord f).primeRateValue ∧
    ((bankCRecord f).bankUpdateDate = "N/A" ∨
      ymdShape (bankCRecord f).bankUpdateDate) := by
  cases f with
  | none => exact ⟨Or.inl rfl, Or.inl rfl⟩
  | some rd =>
    obtain ⟨rt, dt⟩ := rd
    exact ⟨rateFieldOK_format_rate _, reformatSlashDate_shape dt⟩

theorem hiborRecord_shape (f : Option (String × String × String)) :
    rateFieldOK (hiborRecord f).HIBOR_value ∧
    ((hiborRecord f).lastUpdateDate = "N/A" ∨
      hiborDateShape (hiborRecord f).lastUpdateDate) := by
  cases f with
  | none => exact ⟨Or.inl rfl, Or.inl rfl⟩
  | some z =>
    obtain ⟨yt, dt, rt⟩ := z
    simp only [hiborRecord]
    cases hy : searchD4 yt.data with
    | none => exact ⟨Or.inl rfl, Or.inl rfl⟩
    | some y =>
      obtain ⟨hylen, hydig⟩ := searchD4_spec yt.data y hy
      cases hparts : digitRuns dt.data with
      | nil => exact ⟨rateFieldOK_format_rate _, Or.inl rfl⟩
      | cons p0 parts1 =>
        cases parts1 with
        | nil => exact ⟨rateFieldOK_format_rate _, Or.inl rfl⟩
        | cons p1 parts2 =>
          cases parts2 with
          | nil =>
            refine ⟨rateFieldOK_format_rate _, Or.inr ?_⟩
            refine ⟨y, pad2 (digitsToNat p0), pad2 (digitsToNat p1), rfl, hylen,
              (pad2_spec _).1, (pad2_spec _).1, hydig, (pad2_spec _).2,
              (pad2_spec _).2⟩
          | cons p2 parts3 => exact ⟨rateFieldOK_format_rate _, Or.inl rfl⟩

/-! ## The claims -/

/-- C1 counterexample: a cycle in which exactly one bank's page-load
(`driver.get`, line 89 — here bank B's) raises, while every other source
would deliver good data.  The claim predicts that the other two banks are
still scraped and that HIBOR is still populated; in fact the navigation
error is raised outside every per-source `try`, reaches the top-level
handler of line 157, and the cycle publishes nothing at all — with an
empty prior cache the query still serves the full `"Loading..."`
placeholder afterwards. -/
theorem C1_counterexample :
    scrape_and_cache_rates
      ⟨true, ⟨true, some ("5.500%", "25/03/2024")⟩,
       ⟨false, some ("5.5", "Updated 2024-01-02")⟩,
       ⟨true, some ("5.875", "01/02/2024")⟩,
       ⟨true, some ("2024年", "3月 4日", "4.71%")⟩⟩ none = none ∧
    get_rates
      (scrape_and_cache_rates
        ⟨true, ⟨true, some ("5.500%", "25/03/2024")⟩,
         ⟨false, some ("5.5", "Updated 2024-01-02")⟩,
         ⟨true, some ("5.875", "01/02/2024")⟩,
         ⟨true, some ("2024年", "3月 4日", "4.71%")⟩⟩ none) = loadingResponse := by
  constructor
  · decide
  · decide

/-- C1 amended: a bank page-load failure is NOT isolated — any navigation
failure (or session failure) aborts the whole cycle and leaves the cache
untouched (first conjunct).  Isolation holds one level down, where the
per-bank `try` blocks sit: when session and all navigations succeed the
cycle always publishes, each record of the snapshot is a function of its
own source's block outcome alone (so the other banks and HIBOR are
unaffected by one bank's block failure), and a bank whose guarded block
raised keeps `"N/A"` in both of its fields (remaining conjuncts). -/
theorem C1_theorem :
    (∀ (env : CycleEnv) (cache : Option RatesResponse),
      cycleCompletes env = false → scrape_and_cache_rates env cache = cache) ∧
    (∀ (env : CycleEnv) (cache : Option RatesResponse),
      cycleCompletes env = true →
      scrape_and_cache_rates env cache =
        some ⟨[bankARecord env.bankA.fields, bankBRecord env.bankB.fields,
               bankCRecord env.bankC.fields], hiborRecord env.hibor.fields⟩) ∧
    bankARecord none = ⟨"天星銀行", "N/A", "N/A"⟩ ∧
    bankBRecord none = ⟨"華僑永亨", "N/A", "N/A"⟩ ∧
    bankCRecord none = ⟨"工商銀行", "N/A", "N/A"⟩ ∧
    hiborRecord none = ⟨"N/A", "N/A"⟩ :=
  ⟨scrape_abort, scrape_publish, rfl, rfl, rfl, rfl⟩

/-- Witness for the amended C1 at concrete cycles: an aborted one (bank B
navigation fails, prior cache kept verbatim) and a published one (bank B's
guarded block fails, its record alone is `"N/A"`/`"N/A"`). -/
theorem C1_theorem_witness :
    scrape_and_cache_rates
      ⟨true, ⟨true, none⟩, ⟨false, none⟩, ⟨true, none⟩, ⟨true, none⟩⟩
      (some loadingResponse) = some loadingResponse ∧
    scrape_and_cache_rates
      ⟨true, ⟨true, some ("5.500%", "25/03/2024")⟩, ⟨true, none⟩,
       ⟨true, some ("5.875", "01/02/2024")⟩,
       ⟨true, some ("2024年", "3月 4日", "4.71%")⟩⟩ none =
      some ⟨[bankARecord (some ("5.500%", "25/03/2024")),
             ⟨"華僑永亨", "N/A", "N/A"⟩,
             bankCRecord (some ("5.875", "01/02/2024"))],
            hiborRecord (some ("2024年", "3月 4日", "4.71%"))⟩ :=
  ⟨C1_theorem.1 _ _ (by decide), C1_theorem.2.1 _ _ (by decide)⟩

/-- C2: one invocation of the extraction cycle either leaves the cache
exactly as it was (abort) or replaces it in a single whole-snapshot
assignment (line 154) with the snapshot assembled from the four sources
of this cycle; `snapOf env` does not mention the previous cache at all,
so the new snapshot is never merged with the old one and a reader can
never observe records from two different cycles. -/
theorem C2_theorem (env : CycleEnv) (cache : Option RatesResponse) :
    scrape_and_cache_rates env cache =
      if cycleCompletes env = true then some (snapOf env) else cache := by
  by_cases h : cycleCompletes env = true
  · rw [if_pos h]
    exact scrape_publish env cache h
  · have hf : cycleCompletes env = false := by
      cases hcc : cycleCompletes env
      · rfl
      · exact absurd hcc h
    rw [if_neg h]
    exact scrape_abort env cache hf

/-- C3 counterexample: `5.125` is exactly representable in binary64 and
lies exactly half-way between `5.12` and `5.13`; CPython's fixed-point
formatting rounds ties to even, so `format_rate "5.125"` is `"5.12"`,
not `"5.13"` as the claim states. -/
theorem C3_counterexample :
    format_rate "5.125" = "5.12" ∧ format_rate "5.125" ≠ "5.13" := by
  constructor
  · decide
  · decide

/-- C3 amended: for every string that `float()` parses to a finite value,
`format_rate` returns it with exactly two digits after the decimal point,
rounding ties to even (banker's rounding on the exact binary value): in
particular `"5" ↦ "5.00"`, `"5.1" ↦ "5.10"`, `"-1" ↦ "-1.00"`, and
`"5.125" ↦ "5.12"` rather than the claimed `"5.13"`. -/
theorem C3_theorem :
    format_rate "5" = "5.00" ∧ format_rate "5.1" = "5.10" ∧
    format_rate "-1" = "-1.00" ∧ format_rate "5.125" = "5.12" ∧
    ∀ (s : String) (sign : Bool) (m : Nat) (e : Int),
      pyFloatOfString s = some (.finite sign m e) →
      fracDigits (format_rate s).data = some 2 := by
  refine ⟨by decide, by decide, by decide, by decide, ?_⟩
  intro s sign m e h
  rw [format_rate_of_some s _ h]
  exact fracDigits_formatF2 sign m e

/-- Witness for the amended C3: `"5.5"` parses to the finite double
`11·2^49·2^-50` and its formatted form has exactly two fractional
digits. -/
theorem C3_theorem_witness : fracDigits (format_rate "5.5").data = some 2 :=
  C3_theorem.2.2.2.2 "5.5" false (11 * 2 ^ 49) (-50) (by decide)

/-- C4: `format_rate` is total: in the embedding it is a total function
whose two failure modes are explicit — `ValueError` (`pyFloatOfString`
returning `none`) for any unparsable string including the empty string,
and `TypeError` for `None` — and both are caught by the handler of
line 44, returning the original input unchanged. -/
theorem C4_theorem :
    format_rate "" = "" ∧ format_rate "N/A" = "N/A" ∧
    format_rate "abc" = "abc" ∧
    (∀ s : String, pyFloatOfString s = none → format_rate s = s) ∧
    format_rate_opt none = none ∧
    (∀ s : String, format_rate_opt (some s) = some (format_rate s)) :=
  ⟨by decide, by decide, by decide, format_rate_of_none, rfl, fun _ => rfl⟩

/-- Witness for C4: a string with two decimal points fails to parse and is
passed through unchanged. -/
theorem C4_theorem_witness : format_rate "12.3.4" = "12.3.4" :=
  C4_theorem.2.2.2.1 "12.3.4" (by decide)

/-- C5: the `DD/MM/YYYY` reformat step maps `"25/03/2024"` to
`"2024-03-25"`; any text in which the pattern occurs produces a match
(fourth conjunct) and the match is rewritten into `YYYY-MM-DD` order with
the digit groups preserved (third conjunct); any text with no match maps
to `"N/A"` even when a rate was found — the date branch never consults the
rate (second conjunct). -/
theorem C5_theorem :
    reformatSlashDate "25/03/2024" = "2024-03-25" ∧
    (∀ t : String, searchSlash t.data = none → reformatSlashDate t = "N/A") ∧
    (∀ (t : String) (d mo y : List Char),
      searchSlash t.data = some (d, mo, y) →
      reformatSlashDate t = ⟨y ++ '-' :: mo ++ '-' :: d⟩ ∧
      d.length = 2 ∧ mo.length = 2 ∧ y.length = 4 ∧
      (∀ c ∈ d, c.isDigit = true) ∧ (∀ c ∈ mo, c.isDigit = true) ∧
      (∀ c ∈ y, c.isDigit = true)) ∧
    (∀ (pre suf : List Char) (d1 d2 m1 m2 y1 y2 y3 y4 : Char),
      (∀ c ∈ [d1, d2, m1, m2, y1, y2, y3, y4], c.isDigit = true) →
      (searchSlash (pre ++ d1 :: d2 :: '/' :: m1 :: m2 :: '/' ::
        y1 :: y2 :: y3 :: y4 :: suf)).isSome = true) := by
  refine ⟨by decide, ?_, ?_, searchSlash_of_contains⟩
  · intro t h
    unfold reformatSlashDate
    rw [h]
  · intro t d mo y h
    obtain ⟨h1, h2, h3, h4, h5, h6⟩ := searchSlash_spec t.data d mo y h
    refine ⟨?_, h1, h2, h3, h4, h5, h6⟩
    unfold reformatSlashDate
    rw [h]

/-- Witness for C5: a no-match text maps to `"N/A"`, a matched text is
rewritten to `YYYY-MM-DD`, and a pattern surrounded by other text is still
found. -/
theorem C5_theorem_witness :
    reformatSlashDate "abc" = "N/A" ∧
    reformatSlashDate "x 05/06/2024 y" = ⟨['2','0','2','4'] ++ '-' ::
      ['0','6'] ++ '-' :: ['0','5']⟩ ∧
    (searchSlash (['x', ' '] ++ '0' :: '5' :: '/' :: '0' :: '6' :: '/' ::
      '2' :: '0' :: '2' :: '4' :: [' ', 'y'])).isSome = true :=
  ⟨C5_theorem.2.1 "abc" (by decide),
   (C5_theorem.2.2.1 "x 05/06/2024 y" ['0','5'] ['0','6'] ['2','0','2','4']
     (by decide)).1,
   C5_theorem.2.2.2 ['x', ' '] [' ', 'y'] '0' '5' '0' '6' '2' '0' '2' '4'
     (by decide)⟩

/-- C6: if the remote-session creation fails, or a navigation error
escapes the per-source blocks, the cycle publishes no snapshot: the cache
is left exactly as it was, and when no snapshot existed the query still
answers with the `"Loading..."` placeholder. -/
theorem C6_theorem (env : CycleEnv) (cache : Option RatesResponse)
    (h : cycleCompletes env = false) :
    scrape_and_cache_rates env cache = cache ∧
    get_rates (scrape_and_cache_rates env none) = loadingResponse := by
  refine ⟨scrape_abort env cache h, ?_⟩
  rw [scrape_abort env none h]
  rfl

/-- Witness for C6 at a concrete session-creation failure. -/
theorem C6_theorem_witness :
    scrape_and_cache_rates
      ⟨false, ⟨true, none⟩, ⟨true, none⟩, ⟨true, none⟩, ⟨true, none⟩⟩
      (some loadingResponse) = some loadingResponse ∧
    get_rates (scrape_and_cache_rates
      ⟨false, ⟨true, none⟩, ⟨true, none⟩, ⟨true, none⟩, ⟨true, none⟩⟩ none) =
      loadingResponse :=
  C6_theorem ⟨false, ⟨true, none⟩, ⟨true, none⟩, ⟨true, none⟩, ⟨true, none⟩⟩
    (some loadingResponse) (by decide)

/-- C7: the query endpoint returns the stored snapshot whenever one is
present, and before any cycle has completed it returns the fixed
placeholder snapshot — every string field `"Loading..."`, the three bank
identifiers unchanged and in the fixed order; in the embedding it is a
pure total function of the cache, so it cannot fail and cannot trigger
extraction. -/
theorem C7_theorem :
    get_rates none =
      ⟨[⟨"天星銀行", "Loading...", "Loading..."⟩,
        ⟨"華僑永亨", "Loading...", "Loading..."⟩,
        ⟨"工商銀行", "Loading...", "Loading..."⟩],
       ⟨"Loading...", "Loading..."⟩⟩ ∧
    ∀ s : RatesResponse, get_rates (some s) = s :=
  ⟨rfl, fun _ => rfl⟩

/-- C8 counterexample: a fully successful cycle in which bank A's rate
element carries the text `"abc"`.  `format_rate` passes unparsable text
through unchanged, so the published snapshot contains the field `"abc"` —
neither a two-fractional-digit decimal, nor an ISO date, nor the literal
`"N/A"` — refuting the claim that no other string can appear. -/
theorem C8_counterexample :
    scrape_and_cache_rates
      ⟨true, ⟨true, some ("abc", "25/03/2024")⟩,
       ⟨true, some ("5.5", "Updated 2024-01-02")⟩,
       ⟨true, some ("5.875", "01/02/2024")⟩,
       ⟨true, some ("2024年", "3月 4日", "4.71%")⟩⟩ none =
      some ⟨[⟨"天星銀行", "abc", "2024-03-25"⟩,
             ⟨"華僑永亨", "5.50", "2024-01-02"⟩,
             ⟨"工商銀行", "5.88", "2024-02-01"⟩], ⟨"4.71", "2024-03-04"⟩⟩ ∧
    ("abc" : String) ≠ "N/A" ∧ fracDigits "abc".data = none := by
  refine ⟨by decide, by decide, by decide⟩

/-- C8 amended: in every published snapshot, every rate field is `"N/A"`,
a decimal with exactly two fractional digits, one of `"inf"`, `"-inf"`,
`"nan"`, or the raw (possibly percent-stripped) source text — which then
fails to parse as a float; every bank date field is `"N/A"` or a
digit-composed `YYYY-MM-DD`-shaped string (copied from the source without
calendar validation), and the HIBOR date is `"N/A"` or a four-digit year
followed by two zero-padded digit groups. -/
theorem C8_theorem (env : CycleEnv) (cache : Option RatesResponse)
    (s : RatesResponse) (hc : cycleCompletes env = true)
    (hs : scrape_and_cache_rates env cache = some s) :
    (∀ item ∈ s.primeRate,
      rateFieldOK item.primeRateValue ∧
      (item.bankUpdateDate = "N/A" ∨ ymdShape item.bankUpdateDate)) ∧
    rateFieldOK s.HIBOR.HIBOR_value ∧
    (s.HIBOR.lastUpdateDate = "N/A" ∨ hiborDateShape s.HIBOR.lastUpdateDate) := by
  rw [scrape_publish env cache hc] at hs
  have hss : s = snapOf env := (Option.some.inj hs).symm
  subst hss
  refine ⟨?_, (hiborRecord_shape env.hibor.fields).1,
    (hiborRecord_shape env.hibor.fields).2⟩
  intro item hitem
  simp only [snapOf, List.mem_cons] at hitem
  rcases hitem with rfl | rfl | rfl | hitem
  · exact bankARecord_shape _
  · exact bankBRecord_shape _
  · exact bankCRecord_shape _
  · cases hitem

/-- Witness for the amended C8 at a concrete published snapshot. -/
theorem C8_theorem_witness :
    rateFieldOK "5.50" ∧
    (("2024-03-25" : String) = "N/A" ∨ ymdShape "2024-03-25") := by
  have h := C8_theorem
    ⟨true, ⟨true, some ("5.500%", "25/03/2024")⟩, ⟨true, none⟩,
     ⟨true, none⟩, ⟨true, none⟩⟩ none
    ⟨[⟨"天星銀行", "5.50", "2024-03-25"⟩, ⟨"華僑永亨", "N/A", "N/A"⟩,
      ⟨"工商銀行", "N/A", "N/A"⟩], ⟨"N/A", "N/A"⟩⟩ (by decide) (by decide)
  exact h.1 ⟨"天星銀行", "5.50", "2024-03-25"⟩ (by decide)

/-- C9 counterexample: `str.strip('%')` removes ALL leading and trailing
percent signs, not at most a single trailing one: the rate text `"%5%%"`
becomes `"5"`, which then parses and formats to `"5.00"` — where the claim
predicts the leading `'%'` and the second trailing `'%'` are kept, leaving
the unparsable `"%5%"` to pass through. -/
theorem C9_counterexample :
    bankARecord (some ("%5%%", "x")) = ⟨"天星銀行", "5.00", "N/A"⟩ ∧
    stripPercent "%5%%" = "5" ∧ stripPercent "%5%%" ≠ "%5%" := by
  refine ⟨by decide, by decide, by decide⟩

/-- C9 amended: the normalization applied to the Bank A and HIBOR rate
texts removes every leading and every trailing `'%'` character (the input
decomposes as percent-blocks around a core that neither starts nor ends
with `'%'`), removes nothing in the interior, and feeds the stripped text
to `format_rate`. -/
theorem C9_theorem :
    (∀ t : String, ∃ a b : Nat,
      t.data = List.replicate a '%' ++ (stripPercent t).data ++
        List.replicate b '%' ∧
      (stripPercent t).data.head? ≠ some '%' ∧
      (stripPercent t).data.getLast? ≠ some '%') ∧
    (∀ rt dt : String,
      (bankARecord (some (rt, dt))).primeRateValue =
        format_rate (stripPercent rt)) ∧
    (∀ (yt dt rt : String) (y : List Char), searchD4 yt.data = some y →
      (hiborRecord (some (yt, dt, rt))).HIBOR_value =
        format_rate (stripPercent rt)) := by
  refine ⟨fun t => stripPercentL_decomp t.data, fun rt dt => rfl, ?_⟩
  intro yt dt rt y h
  simp only [hiborRecord]
  rw [h]

/-- Witness for the amended C9 at concrete inputs. -/
theorem C9_theorem_witness :
    (∃ a b : Nat,
      "%5%".data = List.replicate a '%' ++ (stripPercent "%5%").data ++
        List.replicate b '%' ∧
      (stripPercent "%5%").data.head? ≠ some '%' ∧
      (stripPercent "%5%").data.getLast? ≠ some '%') ∧
    (hiborRecord (some ("2024", "3 4", "4.71%"))).HIBOR_value =
      format_rate (stripPercent "4.71%") :=
  ⟨C9_theorem.1 "%5%",
   C9_theorem.2.2 "2024" "3 4" "4.71%" ['2', '0', '2', '4'] (by decide)⟩

/-- C10: the numeric branch of `format_rate` accepts more than plain
decimals: scientific notation is parsed and reformatted
(`"1e2" ↦ "100.00"`), while `"inf"` and `"nan"` parse successfully to the
special values yet format back to `"inf"` and `"nan"` — outputs containing
no decimal point at all. -/
theorem C10_theorem :
    format_rate "1e2" = "100.00" ∧
    pyFloatOfString "inf" = some PyFloat.inf ∧ format_rate "inf" = "inf" ∧
    pyFloatOfString "nan" = some PyFloat.nan ∧ format_rate "nan" = "nan" ∧
    fracDigits "inf".data = none ∧ fracDigits "nan".data = none := by
  refine ⟨by decide, by decide, by decide, by decide, by decide, by decide,
    by decide⟩

end IFB
